import Mathlib

/-!
Verification of the point-cloud spatial processing engine of RENE-CloudStream3D.

The development shallowly embeds the engine's JavaScript source:
* `src/parser.js` — `parseXYZFile` (regex scan of numeric triples, inline bounds,
  HSL colorization) and `centerPositions`;
* `src/selection.js` — `selectPointsInBox`, `restoreOriginalColors`,
  `resetOriginalColors`, `saveSelectedPoints`;
* the profile module (`distanceToVerticalPlane`, `distanceAlongLine`,
  `getProfilePoints`).

Numbers are embedded as exact rationals (selection, parsing, centering) or reals
(profile extraction, whose direction normalization takes square roots); the
IEEE-754 behaviour of the source is modelled explicitly where a claim depends on
it (division by zero in the unit-cube test, the `length() || 1` normalization
guard).  Flat `Float32Array`s of x,y,z triples are modelled as lists of vectors,
and the parallel positions/colors arrays as lists of pairs.
-/

namespace CloudStream

/-- A 3-component vector, as THREE.Vector3 restricted to the operations the
engine uses.  Instantiated at ℚ for the parser and selection code and at ℝ for
the profile extractor. -/
structure Vec3 (α : Type) where
  x : α
  y : α
  z : α
  deriving Repr, DecidableEq

/-! ## Ingestion parser (`src/parser.js`, `parseXYZFile`)

The source scans the whole input with the global regex

  `/([+-]?\d*\.?\d+(?:[eE][+-]?\d+)?)\s+(…)\s+(…)/g`

via repeated `exec`, each call finding the leftmost match at or after the end of
the previous one.  The functions below embed exactly this pattern with JS
backtracking semantics: each sub-pattern enumerates its possible (consumed,
rest) splits in the engine's preference order (greedy pieces longest first,
optional pieces present first), and sequencing is list bind, so the head of the
final list is the match the engine reports. -/

/-- JS regex `\d` (ASCII digits). -/
def isDigitCh (c : Char) : Bool := c.isDigit

/-- JS regex `\s`, restricted to the ASCII whitespace occurring in XYZ text. -/
def isSpaceCh (c : Char) : Bool :=
  c = ' ' || c = '\t' || c = '\n' || c = '\r' || c = '\x0B' || c = '\x0C'

/-- All splits of a greedy `p*`, longest (most preferred) first. -/
def starOf (p : Char → Bool) : List Char → List (List Char × List Char)
  | [] => [([], [])]
  | c :: cs =>
    if p c then ((starOf p cs).map (fun q => (c :: q.1, q.2))) ++ [([], c :: cs)]
    else [([], c :: cs)]

/-- All splits of a greedy `p+`: one mandatory character then `p*`. -/
def plusOf (p : Char → Bool) : List Char → List (List Char × List Char)
  | [] => []
  | c :: cs =>
    if p c then (starOf p cs).map (fun q => (c :: q.1, q.2)) else []

/-- All splits of an optional single character out of `chars` (`[+-]?`, `\.?`),
with the present alternative preferred. -/
def optChar (chars : List Char) : List Char → List (List Char × List Char)
  | [] => [([], [])]
  | c :: cs =>
    if chars.contains c then [([c], cs), ([], c :: cs)] else [([], c :: cs)]

/-- All splits of the optional exponent group `(?:[eE][+-]?\d+)?`. -/
def expPart (l : List Char) : List (List Char × List Char) :=
  (match l with
   | c :: cs =>
     if c = 'e' || c = 'E' then
       (optChar ['+', '-'] cs).flatMap (fun sg =>
         (plusOf isDigitCh sg.2).map (fun d => (c :: (sg.1 ++ d.1), d.2)))
     else []
   | [] => []) ++ [([], l)]

/-- All splits of one numeric token `[+-]?\d*\.?\d+(?:[eE][+-]?\d+)?`. -/
def numToken (l : List Char) : List (List Char × List Char) :=
  (optChar ['+', '-'] l).flatMap fun sg =>
  (starOf isDigitCh sg.2).flatMap fun d1 =>
  (optChar ['.'] d1.2).flatMap fun dot =>
  (plusOf isDigitCh dot.2).flatMap fun d2 =>
  (expPart d2.2).map fun ex => (sg.1 ++ d1.1 ++ dot.1 ++ d2.1 ++ ex.1, ex.2)

/-- All matches of the full pattern `num\s+num\s+num` anchored at the start of
`l`, most preferred first; the engine reports the head. -/
def tripleMatch (l : List Char) : List ((List Char × List Char × List Char) × List Char) :=
  (numToken l).flatMap fun n1 =>
  (plusOf isSpaceCh n1.2).flatMap fun w1 =>
  (numToken w1.2).flatMap fun n2 =>
  (plusOf isSpaceCh n2.2).flatMap fun w2 =>
  (numToken w2.2).map fun n3 => ((n1.1, n2.1, n3.1), n3.2)

/-- The `while ((match = lineRegex.exec(content)) !== null)` loop: report the
leftmost match at or after the current position and continue from its end.  The
recursion is driven by fuel so that it stays structural; every step either
consumes the (nonempty) matched text or advances one character, so
`length + 1` units of fuel are always sufficient. -/
def scanTriplesF : ℕ → List Char → List (List Char × List Char × List Char)
  | 0, _ => []
  | fuel + 1, l =>
    match (tripleMatch l).head? with
    | some m => m.1 :: scanTriplesF fuel m.2
    | none =>
      match l with
      | [] => []
      | _ :: tl => scanTriplesF fuel tl

/-- All numeric triples the global regex extracts from the input, in order. -/
def scanTriples (l : List Char) : List (List Char × List Char × List Char) :=
  scanTriplesF (l.length + 1) l

/-- Decimal digits to their value. -/
def digitsVal (l : List Char) : ℕ :=
  l.foldl (fun a c => 10 * a + (c.toNat - '0'.toNat)) 0

/-- The syntactic parts of a numeric token: sign, integer digits, fraction
digits (with their count, for the power of ten), decimal exponent. -/
structure NumParts where
  neg : Bool
  intPart : ℕ
  fracPart : ℕ
  fracLen : ℕ
  exp : ℤ
  deriving Repr, DecidableEq

/-- Decompose a token matched by the number pattern
`[+-]?\d*\.?\d+(?:[eE][+-]?\d+)?` into its parts. -/
def tokenParts (tok : List Char) : NumParts :=
  let neg := tok.head? = some '-'
  let r1 := if tok.head? = some '-' || tok.head? = some '+' then tok.tail else tok
  let intDigits := r1.takeWhile isDigitCh
  let r2 := r1.dropWhile isDigitCh
  let fracDigits := if r2.head? = some '.' then r2.tail.takeWhile isDigitCh else []
  let r3 := if r2.head? = some '.' then r2.tail.dropWhile isDigitCh else r2
  let e : ℤ :=
    match r3 with
    | [] => 0
    | _ :: t =>
      if t.head? = some '-' then -(digitsVal t.tail : ℤ)
      else if t.head? = some '+' then (digitsVal t.tail : ℤ)
      else (digitsVal t : ℤ)
  ⟨neg, digitsVal intDigits, digitsVal fracDigits, fracDigits.length, e⟩

/-- Numeric value of decomposed parts. -/
def partsVal (p : NumParts) : ℚ :=
  (if p.neg then -1 else 1) * ((p.intPart : ℚ) + (p.fracPart : ℚ) / 10 ^ p.fracLen)
    * (10 : ℚ) ^ p.exp

/-- `parseFloat` on a token matched by the number pattern.  The value is exact;
the float64 rounding the source incurs is abstracted away. -/
def tokenVal (tok : List Char) : ℚ := partsVal (tokenParts tok)

/-- Per-axis running min/max, as accumulated inline by the parsing loop.  `none`
models the untouched `±Infinity` sentinels of the zero-record case. -/
structure BoundsQ where
  minX : ℚ
  maxX : ℚ
  minY : ℚ
  maxY : ℚ
  minZ : ℚ
  maxZ : ℚ
  deriving Repr, DecidableEq

/-- One step of the inline bounds accumulation (`if (x < minX) minX = x` …). -/
def accBounds : Option BoundsQ → Vec3 ℚ → Option BoundsQ
  | none, p => some ⟨p.x, p.x, p.y, p.y, p.z, p.z⟩
  | some b, p =>
    some ⟨min b.minX p.x, max b.maxX p.x, min b.minY p.y, max b.maxY p.y,
          min b.minZ p.z, max b.maxZ p.z⟩

/-- THREE.MathUtils `clamp` to [0,1]. -/
def clamp01 (v : ℚ) : ℚ := max 0 (min 1 v)

/-- THREE.MathUtils.euclideanModulo into [0,1), as used by `Color.setHSL`. -/
def euclidMod1 (n : ℚ) : ℚ := n - ⌊n⌋

/-- THREE.Color's `hue2rgb` helper. -/
def hue2rgb (p q t : ℚ) : ℚ :=
  let t1 := if t < 0 then t + 1 else t
  let t2 := if t1 > 1 then t1 - 1 else t1
  if t2 < 1/6 then p + (q - p) * 6 * t2
  else if t2 < 1/2 then q
  else if t2 < 2/3 then p + (q - p) * 6 * (2/3 - t2)
  else p

/-- THREE.Color.setHSL, returning (r, g, b). -/
def setHSL (h s l : ℚ) : ℚ × ℚ × ℚ :=
  let h1 := euclidMod1 h
  let s1 := clamp01 s
  let l1 := clamp01 l
  if s1 = 0 then (l1, l1, l1)
  else
    let pv := if l1 ≤ 1/2 then l1 * (1 + s1) else l1 + s1 - l1 * s1
    let qv := 2 * l1 - pv
    (hue2rgb qv pv (h1 + 1/3), hue2rgb qv pv h1, hue2rgb qv pv (h1 - 1/3))

/-- Result record of `parseXYZFile`: the trimmed flat positions and colors
arrays, the record count, and the inline-accumulated bounds. -/
structure ParseResult where
  positions : List ℚ
  colors : List ℚ
  count : ℕ
  bounds : Option BoundsQ

/-- The parsed records of an input text: one exact-valued coordinate triple
per regex match, in scan order. -/
def parsedRecords (content : String) : List (Vec3 ℚ) :=
  (scanTriples content.toList).map
    (fun t => ⟨tokenVal t.1, tokenVal t.2.1, tokenVal t.2.2⟩)

/-- The three color entries of one point: normalized elevation fed to the
blue-to-red HSL gradient (`setHSL(0.6 - nz*0.6, 1.0, 0.5)`; `0.6 = 3/5`). -/
def colorTriple (minZ zr : ℚ) (p : Vec3 ℚ) : List ℚ :=
  let nz := (p.z - minZ) / zr
  let c := setHSL (3/5 - nz * (3/5)) 1 (1/2)
  [c.1, c.2.1, c.2.2]

/-- `parseXYZFile`: scan the text for numeric triples, store them flat,
accumulate bounds inline, then colorize by normalized elevation.
`zRange = maxZ - minZ || 1` is the division-by-zero fallback of the source;
the color pass is empty exactly when no record was parsed. -/
def parseXYZFile (content : String) : ParseResult :=
  let recs := parsedRecords content
  let bounds := recs.foldl accBounds none
  ⟨recs.flatMap (fun p => [p.x, p.y, p.z]),
   match bounds with
   | none => []
   | some b =>
     recs.flatMap (colorTriple b.minZ (if b.maxZ - b.minZ = 0 then 1 else b.maxZ - b.minZ)),
   recs.length, bounds⟩

@[simp] lemma parseXYZFile_count (content : String) :
    (parseXYZFile content).count = (parsedRecords content).length := rfl

@[simp] lemma parseXYZFile_positions (content : String) :
    (parseXYZFile content).positions =
      (parsedRecords content).flatMap (fun p => [p.x, p.y, p.z]) := rfl

@[simp] lemma parseXYZFile_bounds (content : String) :
    (parseXYZFile content).bounds = (parsedRecords content).foldl accBounds none := rfl

lemma parseXYZFile_colors (content : String) :
    (parseXYZFile content).colors =
      match (parsedRecords content).foldl accBounds none with
      | none => []
      | some b =>
        (parsedRecords content).flatMap
          (colorTriple b.minZ (if b.maxZ - b.minZ = 0 then 1 else b.maxZ - b.minZ)) := rfl

/-! ## Coordinate centering (`src/parser.js`, `centerPositions`) -/

/-- Result of `centerPositions`. -/
structure CenterResult where
  centeredPositions : List (Vec3 ℚ)
  offset : Vec3 ℚ
  deriving Repr, DecidableEq

/-- `centerPositions`: subtract the per-axis midpoint of the supplied bounds
from every triple of the positions array. -/
def centerPositions (positions : List (Vec3 ℚ)) (b : BoundsQ) : CenterResult :=
  let centerX := (b.minX + b.maxX) / 2
  let centerY := (b.minY + b.maxY) / 2
  let centerZ := (b.minZ + b.maxZ) / 2
  ⟨positions.map (fun p => ⟨p.x - centerX, p.y - centerY, p.z - centerZ⟩),
   ⟨centerX, centerY, centerZ⟩⟩

/-- The per-axis min/max of a position list, accumulated exactly as the
parsing loop accumulates them inline (`none` for the empty list). -/
def computeBounds (positions : List (Vec3 ℚ)) : Option BoundsQ :=
  positions.foldl accBounds none

/-! ## Oriented region selector (`src/selection.js`)

The box is a THREE.Mesh of a unit `BoxGeometry(1,1,1)` with a position, a
quaternion and a per-axis scale.  `selectPointsInBox` and `saveSelectedPoints`
build `boxMatrix = compose(position, quaternion, (1,1,1))` — scale deliberately
excluded — invert it, map each point through the inverse, divide the result
componentwise by the scale, and test against the ±0.5 unit cube. -/

/-- A THREE.Quaternion (x, y, z, w). -/
structure Quat where
  x : ℚ
  y : ℚ
  z : ℚ
  w : ℚ
  deriving Repr, DecidableEq

/-- Squared norm of a quaternion; the box's orientation quaternion is kept
unit-length by the transform controls. -/
def Quat.normSq (q : Quat) : ℚ := q.x ^ 2 + q.y ^ 2 + q.z ^ 2 + q.w ^ 2

/-- The rotation matrix `Matrix4.compose` builds from a quaternion
(`makeRotationFromQuaternion`), applied to a vector. -/
def quatApply (q : Quat) (v : Vec3 ℚ) : Vec3 ℚ :=
  ⟨(1 - 2 * (q.y ^ 2 + q.z ^ 2)) * v.x + 2 * (q.x * q.y - q.w * q.z) * v.y
     + 2 * (q.x * q.z + q.w * q.y) * v.z,
   2 * (q.x * q.y + q.w * q.z) * v.x + (1 - 2 * (q.x ^ 2 + q.z ^ 2)) * v.y
     + 2 * (q.y * q.z - q.w * q.x) * v.z,
   2 * (q.x * q.z - q.w * q.y) * v.x + 2 * (q.y * q.z + q.w * q.x) * v.y
     + (1 - 2 * (q.x ^ 2 + q.y ^ 2)) * v.z⟩

/-- The transpose of that rotation matrix, applied to a vector. -/
def quatApplyT (q : Quat) (v : Vec3 ℚ) : Vec3 ℚ :=
  ⟨(1 - 2 * (q.y ^ 2 + q.z ^ 2)) * v.x + 2 * (q.x * q.y + q.w * q.z) * v.y
     + 2 * (q.x * q.z - q.w * q.y) * v.z,
   2 * (q.x * q.y - q.w * q.z) * v.x + (1 - 2 * (q.x ^ 2 + q.z ^ 2)) * v.y
     + 2 * (q.y * q.z + q.w * q.x) * v.z,
   2 * (q.x * q.z + q.w * q.y) * v.x + 2 * (q.y * q.z - q.w * q.x) * v.y
     + (1 - 2 * (q.x ^ 2 + q.y ^ 2)) * v.z⟩

/-- `pointVector.applyMatrix4(inverseMatrix)`: the source composes position and
quaternion (unit scale) into a Matrix4 and inverts it numerically; for the unit
quaternions the box carries, that inverse maps `v` to `Rᵀ (v − position)`,
which is embedded directly. -/
def worldToLocal (pos : Vec3 ℚ) (q : Quat) (v : Vec3 ℚ) : Vec3 ℚ :=
  quatApplyT q ⟨v.x - pos.x, v.y - pos.y, v.z - pos.z⟩

/-- The local coordinates after the separate per-axis scale division
(`localX = pointVector.x / selectionBox.scale.x`, …). -/
def boxLocal (pos : Vec3 ℚ) (q : Quat) (scale : Vec3 ℚ) (v : Vec3 ℚ) : Vec3 ℚ :=
  let w := worldToLocal pos q v
  ⟨w.x / scale.x, w.y / scale.y, w.z / scale.z⟩

/-- One axis of the unit-cube test `Math.abs(localX) <= 0.5`.  The source
divides in IEEE arithmetic: when the scale component is 0 the quotient is ±∞ or
NaN and the comparison is false either way, which the `s ≠ 0` conjunct
mirrors. -/
def axisInside (w s : ℚ) : Bool := decide (s ≠ 0 ∧ |w / s| ≤ 1 / 2)

/-- The containment test of `selectPointsInBox` / `saveSelectedPoints`:
transform into the box's unscaled local frame, divide by scale per axis, test
all three axes against ±0.5. -/
def isInsideBox (pos : Vec3 ℚ) (q : Quat) (scale : Vec3 ℚ) (v : Vec3 ℚ) : Bool :=
  let w := worldToLocal pos q v
  axisInside w.x scale.x && axisInside w.y scale.y && axisInside w.z scale.z

/-- Outcome of one `selectPointsInBox` pass over the parallel positions/colors
arrays: the returned count, the rewritten colors array, and the module-level
`originalColors` snapshot after the call (captured lazily on first use). -/
structure SelectOutcome where
  count : ℕ
  colors : List (Vec3 ℚ)
  snapshot : List (Vec3 ℚ)
  deriving Repr, DecidableEq

/-- The light-grey color written to hidden points (0.9, 0.9, 0.9). -/
def fadedColor : Vec3 ℚ := ⟨9/10, 9/10, 9/10⟩

/-- `selectPointsInBox`: lazily snapshot the original colors, then for every
point restore its original color when inside (counting it) and either fade it
or restore it when outside, depending on `hideOutside`. -/
def selectPointsInBox (cloud : List (Vec3 ℚ × Vec3 ℚ))
    (origSnapshot : Option (List (Vec3 ℚ))) (pos : Vec3 ℚ) (q : Quat)
    (scale : Vec3 ℚ) (hideOutside : Bool) : SelectOutcome :=
  let orig := origSnapshot.getD (cloud.map Prod.snd)
  let newColors := (cloud.zip orig).map (fun pco =>
    if isInsideBox pos q scale pco.1.1 then pco.2
    else if hideOutside then fadedColor else pco.2)
  let count := (cloud.filter (fun pc => isInsideBox pos q scale pc.1)).length
  ⟨count, newColors, orig⟩

/-- `restoreOriginalColors`: copy the snapshot back over the flat colors array;
an early `return` — a silent no-op — when there is no point cloud or no
snapshot (`if (!pointCloud || !originalColors) return`). -/
def restoreOriginalColors (cloud : Option (List ℚ)) (snapshot : Option (List ℚ)) :
    Option (List ℚ) :=
  match cloud, snapshot with
  | some colors, some snap => some ((snap.take colors.length) ++ colors.drop snap.length)
  | _, _ => cloud

/-- `resetOriginalColors`: drop the snapshot (`originalColors = null`). -/
def resetOriginalColors : Option (List ℚ) := none

/-- `Number.prototype.toFixed(2)` on an exact rational: sign of the value, then
the magnitude rounded to the nearest hundredth, ties picking the larger
numerator (ECMA ToFixed). -/
def toFixed2 (v : ℚ) : String :=
  let sgn := if v < 0 then "-" else ""
  let n := (⌊|v| * 100 + 1 / 2⌋).toNat
  let ip := n / 100
  let fp := n % 100
  sgn ++ toString ip ++ "." ++ (if fp < 10 then "0" else "") ++ toString fp

/-- The `"<x> <y> <z>"` export line of one selected point: centered coordinates
shifted back by the stored centering offset, each `toFixed(2)`. -/
def exportLine (offset : Vec3 ℚ) (p : Vec3 ℚ) : String :=
  toFixed2 (p.x + offset.x) ++ " " ++ toFixed2 (p.y + offset.y) ++ " "
    ++ toFixed2 (p.z + offset.z)

/-- `saveSelectedPoints`: collect one export line per point currently inside
the box; `none` models the warn-and-return path taken when no point is inside
(no file is written, no exception raised). -/
def saveSelectedPoints (cloud : List (Vec3 ℚ)) (pos : Vec3 ℚ) (q : Quat)
    (scale : Vec3 ℚ) (offset : Vec3 ℚ) : Option (List String) :=
  let sel := cloud.foldr (fun p acc =>
    if isInsideBox pos q scale p then exportLine offset p :: acc else acc) []
  if sel.isEmpty then none else some sel

/-! ## Profile slice extractor (`distanceToVerticalPlane`, `distanceAlongLine`,
`getProfilePoints`)

These are embedded over ℝ because the direction normalization takes a square
root.  `THREE.Vector3.normalize` divides by `length() || 1`, so a zero vector
normalizes to itself rather than producing NaN; the `if` below is that guard. -/

/-- `THREE.Vector3.length`. -/
noncomputable def length3 (v : Vec3 ℝ) : ℝ := Real.sqrt (v.x ^ 2 + v.y ^ 2 + v.z ^ 2)

/-- `THREE.Vector3.normalize`: `divideScalar(this.length() || 1)`. -/
noncomputable def normalize3 (v : Vec3 ℝ) : Vec3 ℝ :=
  let d := if length3 v = 0 then 1 else length3 v
  ⟨v.x / d, v.y / d, v.z / d⟩

/-- `distanceToVerticalPlane`: zero the height component of the line direction,
normalize, rotate 90° in the plane to get the normal, and project the vector
from `lineStart` to the point onto it. -/
noncomputable def distanceToVerticalPlane (point lineStart lineEnd : Vec3 ℝ) : ℝ :=
  let lineDir := normalize3 ⟨lineEnd.x - lineStart.x, lineEnd.y - lineStart.y, 0⟩
  let nrm : Vec3 ℝ := ⟨-lineDir.y, lineDir.x, 0⟩
  |(point.x - lineStart.x) * nrm.x + (point.y - lineStart.y) * nrm.y
    + (point.z - lineStart.z) * nrm.z|

/-- `distanceAlongLine`: projection of the vector from `lineStart` onto the
normalized (full 3D) line direction. -/
noncomputable def distanceAlongLine (point lineStart lineEnd : Vec3 ℝ) : ℝ :=
  let d := normalize3 ⟨lineEnd.x - lineStart.x, lineEnd.y - lineStart.y,
                       lineEnd.z - lineStart.z⟩
  (point.x - lineStart.x) * d.x + (point.y - lineStart.y) * d.y
    + (point.z - lineStart.z) * d.z

/-- One record of the extracted profile: `{distance, z, color, distToPlane}`. -/
structure ProfilePoint where
  distance : ℝ
  z : ℝ
  color : Vec3 ℝ
  distToPlane : ℝ

/-- `getProfilePoints`: scan the parallel positions/colors arrays in order and
keep every point whose perpendicular distance to the vertical plane is at most
half the thickness. -/
noncomputable def getProfilePoints (lineStart lineEnd : Vec3 ℝ) (thickness : ℝ)
    (cloud : List (Vec3 ℝ × Vec3 ℝ)) : List ProfilePoint :=
  cloud.foldr (fun pc acc =>
    if distanceToVerticalPlane pc.1 lineStart lineEnd ≤ thickness / 2 then
      ⟨distanceAlongLine pc.1 lineStart lineEnd, pc.1.z, pc.2,
       distanceToVerticalPlane pc.1 lineStart lineEnd⟩ :: acc
    else acc) []

/-- The sub-list of cloud entries the thickness filter keeps — the "included
point set" of a profile extraction. -/
noncomputable def profileIncluded (lineStart lineEnd : Vec3 ℝ) (thickness : ℝ)
    (cloud : List (Vec3 ℝ × Vec3 ℝ)) : List (Vec3 ℝ × Vec3 ℝ) :=
  cloud.foldr (fun pc acc =>
    if distanceToVerticalPlane pc.1 lineStart lineEnd ≤ thickness / 2 then pc :: acc
    else acc) []

/-! ## Helper lemmas -/

/-- Flattening triples triples the length. -/
lemma length_flatMap_three (recs : List (Vec3 ℚ)) (f : Vec3 ℚ → List ℚ)
    (h : ∀ p, (f p).length = 3) : (recs.flatMap f).length = 3 * recs.length := by
  induction recs with
  | nil => simp
  | cons p tl ih => simp [List.flatMap_cons, ih, h p]; ring

/-- The bounds accumulator never forgets data: the fold is `none` only when it
started at `none` and saw no record. -/
lemma foldl_accBounds_eq_none (ps : List (Vec3 ℚ)) (acc : Option BoundsQ) :
    ps.foldl accBounds acc = none ↔ ps = [] ∧ acc = none := by
  induction ps generalizing acc with
  | nil => simp
  | cons p tl ih =>
    have hsome : ∀ b : Option BoundsQ, ∃ b2, accBounds b p = some b2 := by
      intro b; cases b <;> exact ⟨_, rfl⟩
    obtain ⟨b2, hb2⟩ := hsome acc
    simp [List.foldl_cons, ih, hb2]

end CloudStream

namespace CloudStream

/-! ## Claims -/

/-- C3: for every input text, the parse result satisfies
`count * 3 = positions.length = colors.length`; both flat arrays hold exactly
three entries per parsed record. -/
theorem parse_count_length_invariant (content : String) :
    (parseXYZFile content).count * 3 = (parseXYZFile content).positions.length ∧
    (parseXYZFile content).positions.length = (parseXYZFile content).colors.length := by
  set recs := parsedRecords content with hrecs
  have hpos : (parseXYZFile content).positions.length = 3 * recs.length := by
    rw [parseXYZFile_positions, ← hrecs]
    exact length_flatMap_three recs (fun p => [p.x, p.y, p.z]) (fun p => rfl)
  have hcol : (parseXYZFile content).colors.length = 3 * recs.length := by
    rw [parseXYZFile_colors]
    rcases hb : recs.foldl accBounds none with _ | b
    · have : recs = [] := ((foldl_accBounds_eq_none recs none).mp hb).1
      simp [this]
    · exact length_flatMap_three recs _ (fun p => rfl)
  rw [hpos, hcol, parseXYZFile_count, ← hrecs, Nat.mul_comm]
  exact ⟨rfl, rfl⟩

/-- C10: calling restore with no snapshot captured (or no cloud loaded) is a
silent no-op: the colors are returned unchanged and nothing is raised (the
model is a total function taking the early-return branch). -/
theorem restore_before_selection_noop (cloud snapshot : Option (List ℚ))
    (h : snapshot = none ∨ cloud = none) :
    restoreOriginalColors cloud snapshot = cloud := by
  rcases h with h | h
  · subst h; cases cloud <;> rfl
  · subst h; cases snapshot <;> rfl

/-- Witness for C10: restoring with a loaded cloud but no snapshot leaves the
concrete color array untouched. -/
theorem restore_before_selection_noop_witness :
    restoreOriginalColors (some [1/2, 1/3, 1/4]) none = some [1/2, 1/3, 1/4] :=
  restore_before_selection_noop (some [1/2, 1/3, 1/4]) none (Or.inl rfl)

/-- Shift a bounds record down by a per-axis offset, as centering does to the
data it bounds. -/
def shiftBounds (cX cY cZ : ℚ) (b : BoundsQ) : BoundsQ :=
  ⟨b.minX - cX, b.maxX - cX, b.minY - cY, b.maxY - cY, b.minZ - cZ, b.maxZ - cZ⟩

/-- Bounds of uniformly shifted positions are the shifted bounds. -/
lemma computeBounds_map_sub (ps : List (Vec3 ℚ)) (cX cY cZ : ℚ) :
    computeBounds (ps.map fun p => (⟨p.x - cX, p.y - cY, p.z - cZ⟩ : Vec3 ℚ)) =
      (computeBounds ps).map (shiftBounds cX cY cZ) := by
  unfold computeBounds
  suffices h : ∀ acc : Option BoundsQ,
      (ps.map fun p => (⟨p.x - cX, p.y - cY, p.z - cZ⟩ : Vec3 ℚ)).foldl accBounds
        (acc.map (shiftBounds cX cY cZ)) = (ps.foldl accBounds acc).map (shiftBounds cX cY cZ) by
    simpa using h none
  induction ps with
  | nil => intro acc; simp
  | cons p tl ih =>
    intro acc
    have hstep : accBounds (acc.map (shiftBounds cX cY cZ)) ⟨p.x - cX, p.y - cY, p.z - cZ⟩
        = (accBounds acc p).map (shiftBounds cX cY cZ) := by
      cases acc with
      | none => rfl
      | some b =>
        simp only [Option.map_some', accBounds, shiftBounds, Option.some.injEq,
          BoundsQ.mk.injEq]
        refine ⟨?_, ?_, ?_, ?_, ?_, ?_⟩ <;>
          first
          | exact min_sub_sub_right _ _ _
          | exact max_sub_sub_right _ _ _
    simp only [List.map_cons, List.foldl_cons, hstep]
    exact ih (accBounds acc p)

/-- C4: centering is a fixed point on already-centered data: centering with the
data's own bounds and re-centering the result with the new data's own bounds
yields offset (0,0,0), leaves every position unchanged, and the centered
min/max of every axis sum to zero (exactly, in exact arithmetic). -/
theorem centering_fixed_point (ps : List (Vec3 ℚ)) (b b2 : BoundsQ)
    (h1 : computeBounds ps = some b)
    (h2 : computeBounds (centerPositions ps b).centeredPositions = some b2) :
    (centerPositions (centerPositions ps b).centeredPositions b2).offset = ⟨0, 0, 0⟩ ∧
    (centerPositions (centerPositions ps b).centeredPositions b2).centeredPositions =
      (centerPositions ps b).centeredPositions ∧
    b2.minX + b2.maxX = 0 ∧ b2.minY + b2.maxY = 0 ∧ b2.minZ + b2.maxZ = 0 := by
  have hcent : (centerPositions ps b).centeredPositions =
      ps.map fun p => (⟨p.x - (b.minX + b.maxX) / 2, p.y - (b.minY + b.maxY) / 2,
        p.z - (b.minZ + b.maxZ) / 2⟩ : Vec3 ℚ) := rfl
  have hb2 : b2 = shiftBounds ((b.minX + b.maxX) / 2) ((b.minY + b.maxY) / 2)
      ((b.minZ + b.maxZ) / 2) b := by
    have := h2
    rw [hcent, computeBounds_map_sub, h1] at this
    simpa using this.symm
  have hsum : b2.minX + b2.maxX = 0 ∧ b2.minY + b2.maxY = 0 ∧ b2.minZ + b2.maxZ = 0 := by
    subst hb2; refine ⟨?_, ?_, ?_⟩ <;> simp [shiftBounds] <;> ring
  refine ⟨?_, ?_, hsum⟩
  · simp only [centerPositions]
    have e1 : (b2.minX + b2.maxX) / 2 = 0 := by rw [hsum.1]; norm_num
    have e2 : (b2.minY + b2.maxY) / 2 = 0 := by rw [hsum.2.1]; norm_num
    have e3 : (b2.minZ + b2.maxZ) / 2 = 0 := by rw [hsum.2.2]; norm_num
    simp [e1, e2, e3]
  · simp only [centerPositions]
    have e1 : (b2.minX + b2.maxX) / 2 = 0 := by rw [hsum.1]; norm_num
    have e2 : (b2.minY + b2.maxY) / 2 = 0 := by rw [hsum.2.1]; norm_num
    have e3 : (b2.minZ + b2.maxZ) / 2 = 0 := by rw [hsum.2.2]; norm_num
    rw [e1, e2, e3]
    have : ∀ p : Vec3 ℚ, (⟨p.x - 0, p.y - 0, p.z - 0⟩ : Vec3 ℚ) = p := by
      intro p; cases p; simp
    simp [this]

/-- Witness for C4 at a concrete one-point cloud. -/
theorem centering_fixed_point_witness :
    computeBounds [(⟨1, 2, 3⟩ : Vec3 ℚ)] = some ⟨1, 1, 2, 2, 3, 3⟩ ∧
    (centerPositions (centerPositions [(⟨1, 2, 3⟩ : Vec3 ℚ)] ⟨1, 1, 2, 2, 3, 3⟩).centeredPositions
      ⟨0, 0, 0, 0, 0, 0⟩).offset = ⟨0, 0, 0⟩ := by
  have hb : computeBounds [(⟨1, 2, 3⟩ : Vec3 ℚ)] = some ⟨1, 1, 2, 2, 3, 3⟩ := by
    simp [computeBounds, accBounds]
  have hc : computeBounds (centerPositions [(⟨1, 2, 3⟩ : Vec3 ℚ)] ⟨1, 1, 2, 2, 3, 3⟩).centeredPositions
      = some ⟨0, 0, 0, 0, 0, 0⟩ := by
    simp [centerPositions, computeBounds, accBounds]
  exact ⟨hb, (centering_fixed_point [(⟨1, 2, 3⟩ : Vec3 ℚ)] ⟨1, 1, 2, 2, 3, 3⟩
    ⟨0, 0, 0, 0, 0, 0⟩ hb hc).1⟩

/-- C1: with all scale components positive and a unit orientation quaternion,
the point at the volume's center always passes the containment test; any point
whose local coordinate exceeds 0.5 in absolute value on some axis fails it; and
in Scenario B (origin, identity orientation, scale (2,2,2)) the point
(0.9, 0, 0) is selected while (1.1, 0, 0) is not. -/
theorem box_containment (pos : Vec3 ℚ) (q : Quat) (scale : Vec3 ℚ)
    (hq : q.normSq = 1) (hx : 0 < scale.x) (hy : 0 < scale.y) (hz : 0 < scale.z) :
    isInsideBox pos q scale pos = true ∧
    (∀ v : Vec3 ℚ,
      1 / 2 < |(boxLocal pos q scale v).x| ∨ 1 / 2 < |(boxLocal pos q scale v).y| ∨
        1 / 2 < |(boxLocal pos q scale v).z| →
      isInsideBox pos q scale v = false) ∧
    isInsideBox ⟨0, 0, 0⟩ ⟨0, 0, 0, 1⟩ ⟨2, 2, 2⟩ ⟨9/10, 0, 0⟩ = true ∧
    isInsideBox ⟨0, 0, 0⟩ ⟨0, 0, 0, 1⟩ ⟨2, 2, 2⟩ ⟨11/10, 0, 0⟩ = false := by
  have hw : worldToLocal pos q pos = ⟨0, 0, 0⟩ := by
    simp [worldToLocal, quatApplyT]
  refine ⟨?_, ?_, ?_, ?_⟩
  · simp [isInsideBox, hw, axisInside, hx.ne', hy.ne', hz.ne']
  · intro v h
    rcases h with h | h | h
    · have hax : axisInside (worldToLocal pos q v).x scale.x = false := by
        simp only [boxLocal] at h
        simp only [axisInside, decide_eq_false_iff_not, not_and, not_le]
        intro _; exact h
      simp [isInsideBox, hax]
    · have hax : axisInside (worldToLocal pos q v).y scale.y = false := by
        simp only [boxLocal] at h
        simp only [axisInside, decide_eq_false_iff_not, not_and, not_le]
        intro _; exact h
      simp [isInsideBox, hax]
    · have hax : axisInside (worldToLocal pos q v).z scale.z = false := by
        simp only [boxLocal] at h
        simp only [axisInside, decide_eq_false_iff_not, not_and, not_le]
        intro _; exact h
      simp [isInsideBox, hax]
  · simp [isInsideBox, worldToLocal, quatApplyT, axisInside, abs_le]
    norm_num
  · simp [isInsideBox, worldToLocal, quatApplyT, axisInside, abs_le]
    norm_num

/-- Witness for C1: the center of a concretely placed, rotated-by-identity,
positively scaled box is selected. -/
theorem box_containment_witness :
    Quat.normSq ⟨0, 0, 0, 1⟩ = 1 ∧
    isInsideBox ⟨5, 6, 7⟩ ⟨0, 0, 0, 1⟩ ⟨2, 3, 4⟩ ⟨5, 6, 7⟩ = true :=
  ⟨by norm_num [Quat.normSq],
   (box_containment ⟨5, 6, 7⟩ ⟨0, 0, 0, 1⟩ ⟨2, 3, 4⟩ (by norm_num [Quat.normSq])
     (by norm_num) (by norm_num) (by norm_num)).1⟩

/-- C6 counterexample: a *near-zero* (but nonzero) scale component does not
make the selection empty — the point at the box center still passes the
unit-cube test (its local coordinates are 0), so the claim's "zero or
near-zero scale gives an empty result" fails for near-zero scales. -/
theorem nearzero_scale_center_selected :
    (selectPointsInBox [((⟨0, 0, 0⟩ : Vec3 ℚ), (⟨1, 0, 0⟩ : Vec3 ℚ))] none ⟨0, 0, 0⟩
      ⟨0, 0, 0, 1⟩ ⟨1/1000000000, 1, 1⟩ true).count = 1 := by
  have hin : isInsideBox ⟨0, 0, 0⟩ ⟨0, 0, 0, 1⟩ (⟨1/1000000000, 1, 1⟩ : Vec3 ℚ)
      ⟨0, 0, 0⟩ = true := by
    simp [isInsideBox, worldToLocal, quatApplyT, axisInside]
  simp only [selectPointsInBox, List.filter_cons, hin]
  simp

/-- C6 (amended to exactly-zero scale): with a zero scale component the IEEE
division makes the per-axis test false for every point — no crash, no point
inside — so the selection count is 0 and the export takes the warn-and-return
path. -/
theorem zero_scale_empty_selection
    (cloud : List (Vec3 ℚ × Vec3 ℚ)) (snapshot : Option (List (Vec3 ℚ)))
    (positions : List (Vec3 ℚ)) (pos : Vec3 ℚ) (q : Quat) (scale : Vec3 ℚ)
    (hideOutside : Bool) (offset : Vec3 ℚ)
    (h : scale.x = 0 ∨ scale.y = 0 ∨ scale.z = 0) :
    (∀ v, isInsideBox pos q scale v = false) ∧
    (selectPointsInBox cloud snapshot pos q scale hideOutside).count = 0 ∧
    saveSelectedPoints positions pos q scale offset = none := by
  have hfalse : ∀ v, isInsideBox pos q scale v = false := by
    intro v
    rcases h with h | h | h <;> simp [isInsideBox, axisInside, h]
  refine ⟨hfalse, ?_, ?_⟩
  · simp [selectPointsInBox, hfalse]
  · have hsel : (positions.foldr (fun p acc =>
        if isInsideBox pos q scale p then exportLine offset p :: acc else acc) []) = [] := by
      induction positions with
      | nil => rfl
      | cons p tl ih => simp [hfalse, ih]
    simp [saveSelectedPoints, hsel]

/-- Witness for C6 (amended): a concrete zero-x-scale box selects nothing and
exports nothing. -/
theorem zero_scale_empty_selection_witness :
    (selectPointsInBox [((⟨0, 0, 0⟩ : Vec3 ℚ), (⟨1, 0, 0⟩ : Vec3 ℚ))] none ⟨0, 0, 0⟩
      ⟨0, 0, 0, 1⟩ ⟨0, 1, 1⟩ true).count = 0 ∧
    saveSelectedPoints [(⟨0, 0, 0⟩ : Vec3 ℚ)] ⟨0, 0, 0⟩ ⟨0, 0, 0, 1⟩ ⟨0, 1, 1⟩ ⟨0, 0, 0⟩
      = none :=
  ⟨(zero_scale_empty_selection [(⟨0, 0, 0⟩, ⟨1, 0, 0⟩)] none [⟨0, 0, 0⟩] ⟨0, 0, 0⟩
      ⟨0, 0, 0, 1⟩ ⟨0, 1, 1⟩ true ⟨0, 0, 0⟩ (Or.inl rfl)).2.1,
   (zero_scale_empty_selection [(⟨0, 0, 0⟩, ⟨1, 0, 0⟩)] none [⟨0, 0, 0⟩] ⟨0, 0, 0⟩
      ⟨0, 0, 0, 1⟩ ⟨0, 1, 1⟩ true ⟨0, 0, 0⟩ (Or.inl rfl)).2.2⟩

/-- The export loop collects exactly one line per inside point, in scan
order. -/
lemma save_foldr_eq (cloud : List (Vec3 ℚ)) (pos : Vec3 ℚ) (q : Quat)
    (scale offset : Vec3 ℚ) :
    (cloud.foldr (fun p acc =>
        if isInsideBox pos q scale p then exportLine offset p :: acc else acc) []) =
      (cloud.filter (fun p => isInsideBox pos q scale p)).map (exportLine offset) := by
  induction cloud with
  | nil => rfl
  | cons p tl ih =>
    by_cases hp : isInsideBox pos q scale p = true
    · simp [List.filter_cons, hp, ih]
    · simp only [Bool.not_eq_true] at hp
      simp [List.filter_cons, hp, ih]

/-- C8: the export emits exactly one `"<x> <y> <z>"` line per point inside the
volume, coordinates shifted back to the original frame and formatted to two
decimals, and returns the warn marker (no lines, no error) when nothing is
inside; concretely, the point (1.23, 5.678, 9) with offset (100, 200, 300)
exports as "101.23 205.68 309.00". -/
theorem export_selected_lines :
    (∀ (cloud : List (Vec3 ℚ)) (pos : Vec3 ℚ) (q : Quat) (scale offset : Vec3 ℚ),
      saveSelectedPoints cloud pos q scale offset =
        if (cloud.filter (fun p => isInsideBox pos q scale p)) = [] then none
        else some ((cloud.filter (fun p => isInsideBox pos q scale p)).map
          (exportLine offset))) ∧
    saveSelectedPoints [⟨123/100, 5678/1000, 9⟩] ⟨0, 0, 0⟩ ⟨0, 0, 0, 1⟩
      ⟨100, 100, 100⟩ ⟨100, 200, 300⟩ = some ["101.23 205.68 309.00"] ∧
    saveSelectedPoints [⟨50, 0, 0⟩] ⟨0, 0, 0⟩ ⟨0, 0, 0, 1⟩ ⟨2, 2, 2⟩ ⟨0, 0, 0⟩ = none := by
  refine ⟨?_, ?_, ?_⟩
  · intro cloud pos q scale offset
    unfold saveSelectedPoints
    rw [save_foldr_eq]
    rcases hf : cloud.filter (fun p => isInsideBox pos q scale p) with _ | ⟨a, tl⟩ <;>
      simp [hf]
  · have ha : toFixed2 ((123:ℚ)/100 + 100) = "101.23" := by
      rw [show (123:ℚ)/100 + 100 = 10123/100 by norm_num]
      rw [toFixed2, abs_of_nonneg (by norm_num : (0:ℚ) ≤ 10123/100),
        if_neg (by norm_num : ¬ ((10123:ℚ)/100 < 0)),
        show ⌊(10123:ℚ)/100 * 100 + 1/2⌋ = 10123 from by norm_num [Int.floor_eq_iff]]
      decide
    have hb : toFixed2 ((5678:ℚ)/1000 + 200) = "205.68" := by
      rw [show (5678:ℚ)/1000 + 200 = 205678/1000 by norm_num]
      rw [toFixed2, abs_of_nonneg (by norm_num : (0:ℚ) ≤ 205678/1000),
        if_neg (by norm_num : ¬ ((205678:ℚ)/1000 < 0)),
        show ⌊(205678:ℚ)/1000 * 100 + 1/2⌋ = 20568 from by norm_num [Int.floor_eq_iff]]
      decide
    have hc : toFixed2 ((9:ℚ) + 300) = "309.00" := by
      rw [show (9:ℚ) + 300 = 309 by norm_num]
      rw [toFixed2, abs_of_nonneg (by norm_num : (0:ℚ) ≤ 309),
        if_neg (by norm_num : ¬ ((309:ℚ) < 0)),
        show ⌊(309:ℚ) * 100 + 1/2⌋ = 30900 from by norm_num [Int.floor_eq_iff]]
      decide
    have hin : isInsideBox ⟨0, 0, 0⟩ ⟨0, 0, 0, 1⟩ (⟨100, 100, 100⟩ : Vec3 ℚ)
        ⟨123/100, 5678/1000, 9⟩ = true := by
      simp [isInsideBox, worldToLocal, quatApplyT, axisInside, abs_le]
      norm_num
    simp [saveSelectedPoints, hin, exportLine, ha, hb, hc]
  · have hout : isInsideBox ⟨0, 0, 0⟩ ⟨0, 0, 0, 1⟩ (⟨2, 2, 2⟩ : Vec3 ℚ)
        ⟨50, 0, 0⟩ = false := by
      simp [isInsideBox, worldToLocal, quatApplyT, axisInside, abs_le]
      norm_num
    simp [saveSelectedPoints, hout]

/-- The horizontal length of the line direction (after zeroing z). -/
noncomputable def horizLen (s e : Vec3 ℝ) : ℝ := length3 ⟨e.x - s.x, e.y - s.y, 0⟩

/-- The `length() || 1` denominator of the horizontal normalization. -/
noncomputable def horizDenom (s e : Vec3 ℝ) : ℝ :=
  if horizLen s e = 0 then 1 else horizLen s e

/-- Closed form of `distanceToVerticalPlane`. -/
lemma distanceToVerticalPlane_eq (p s e : Vec3 ℝ) :
    distanceToVerticalPlane p s e =
      |(p.x - s.x) * -((e.y - s.y) / horizDenom s e)
        + (p.y - s.y) * ((e.x - s.x) / horizDenom s e) + (p.z - s.z) * 0| := rfl

/-- The full-3D `length() || 1` denominator used by `distanceAlongLine`. -/
noncomputable def fullDenom (s e : Vec3 ℝ) : ℝ :=
  if length3 ⟨e.x - s.x, e.y - s.y, e.z - s.z⟩ = 0 then 1
  else length3 ⟨e.x - s.x, e.y - s.y, e.z - s.z⟩

/-- Closed form of `distanceAlongLine`. -/
lemma distanceAlongLine_eq (p s e : Vec3 ℝ) :
    distanceAlongLine p s e =
      (p.x - s.x) * ((e.x - s.x) / fullDenom s e)
        + (p.y - s.y) * ((e.y - s.y) / fullDenom s e)
        + (p.z - s.z) * ((e.z - s.z) / fullDenom s e) := rfl

lemma horizLen_swap (s e : Vec3 ℝ) : horizLen e s = horizLen s e := by
  show Real.sqrt ((s.x - e.x) ^ 2 + (s.y - e.y) ^ 2 + 0 ^ 2)
    = Real.sqrt ((e.x - s.x) ^ 2 + (e.y - s.y) ^ 2 + 0 ^ 2)
  congr 1
  ring

lemma horizDenom_swap (s e : Vec3 ℝ) : horizDenom e s = horizDenom s e := by
  unfold horizDenom
  rw [horizLen_swap]

lemma horizDenom_ne_zero (s e : Vec3 ℝ) : horizDenom s e ≠ 0 := by
  unfold horizDenom
  by_cases h : horizLen s e = 0
  · rw [if_pos h]; norm_num
  · rw [if_neg h]; exact h

/-- Swapping the endpoints leaves the perpendicular plane distance
unchanged: the plane normal flips sign and the offset `lineEnd − lineStart`
is orthogonal to it. -/
lemma distanceToVerticalPlane_swap (p s e : Vec3 ℝ) :
    distanceToVerticalPlane p e s = distanceToVerticalPlane p s e := by
  rw [distanceToVerticalPlane_eq, distanceToVerticalPlane_eq, horizDenom_swap]
  by_cases h0 : horizLen s e = 0
  · have harg : (e.x - s.x) ^ 2 + (e.y - s.y) ^ 2 + 0 ^ 2 = 0 := by
      have h1 : Real.sqrt ((e.x - s.x) ^ 2 + (e.y - s.y) ^ 2 + 0 ^ 2) = 0 := h0
      have h2 := Real.sqrt_eq_zero'.mp h1
      nlinarith [sq_nonneg (e.x - s.x), sq_nonneg (e.y - s.y)]
    have hx : e.x - s.x = 0 := by nlinarith [sq_nonneg (e.x - s.x), sq_nonneg (e.y - s.y)]
    have hy : e.y - s.y = 0 := by nlinarith [sq_nonneg (e.x - s.x), sq_nonneg (e.y - s.y)]
    have hx' : s.x - e.x = 0 := by linarith
    have hy' : s.y - e.y = 0 := by linarith
    rw [hx, hy, hx', hy']
    simp
  · have hne : horizDenom s e ≠ 0 := horizDenom_ne_zero s e
    have key : (p.x - e.x) * -((s.y - e.y) / horizDenom s e)
        + (p.y - e.y) * ((s.x - e.x) / horizDenom s e) + (p.z - e.z) * 0
        = -((p.x - s.x) * -((e.y - s.y) / horizDenom s e)
          + (p.y - s.y) * ((e.x - s.x) / horizDenom s e) + (p.z - s.z) * 0) := by
      field_simp
      ring
    rw [key, abs_neg]

/-- With a degenerate (zero horizontal direction) line the normalization guard
keeps the zero vector, so every point's plane distance is 0. -/
lemma distanceToVerticalPlane_degenerate (s e : Vec3 ℝ)
    (hx : e.x = s.x) (hy : e.y = s.y) (p : Vec3 ℝ) :
    distanceToVerticalPlane p s e = 0 := by
  rw [distanceToVerticalPlane_eq, hx, hy]
  simp

/-- The extractor output is the per-point record over the included sub-list. -/
lemma getProfilePoints_eq_map (s e : Vec3 ℝ) (t : ℝ) (cloud : List (Vec3 ℝ × Vec3 ℝ)) :
    getProfilePoints s e t cloud = (profileIncluded s e t cloud).map
      (fun pc => ⟨distanceAlongLine pc.1 s e, pc.1.z, pc.2,
                  distanceToVerticalPlane pc.1 s e⟩) := by
  unfold getProfilePoints profileIncluded
  induction cloud with
  | nil => rfl
  | cons pc tl ih =>
    by_cases h : distanceToVerticalPlane pc.1 s e ≤ t / 2
    · simp only [List.foldr_cons, if_pos h, List.map_cons, ih]
    · simp only [List.foldr_cons, if_neg h, ih]

/-- The included point set is symmetric in the endpoints. -/
lemma profileIncluded_swap (s e : Vec3 ℝ) (t : ℝ) (cloud : List (Vec3 ℝ × Vec3 ℝ)) :
    profileIncluded e s t cloud = profileIncluded s e t cloud := by
  unfold profileIncluded
  induction cloud with
  | nil => rfl
  | cons pc tl ih =>
    simp only [List.foldr_cons, distanceToVerticalPlane_swap, ih]

/-- The included sub-list is a plain filter on the plane distance. -/
lemma profileIncluded_eq_filter (s e : Vec3 ℝ) (t : ℝ) (cloud : List (Vec3 ℝ × Vec3 ℝ)) :
    profileIncluded s e t cloud =
      cloud.filter (fun pc => decide (distanceToVerticalPlane pc.1 s e ≤ t / 2)) := by
  unfold profileIncluded
  induction cloud with
  | nil => rfl
  | cons pc tl ih =>
    by_cases h : distanceToVerticalPlane pc.1 s e ≤ t / 2
    · simp [List.filter_cons, h, ih]
    · simp [List.filter_cons, h, ih]

/-- C2: extracting with `lineStart`/`lineEnd` swapped keeps exactly the same
included point set (the thickness filter is symmetric), and the swapped
extraction records each point's distance measured from the new start point. -/
theorem profile_swap_same_point_set (lineStart lineEnd : Vec3 ℝ) (thickness : ℝ)
    (cloud : List (Vec3 ℝ × Vec3 ℝ)) :
    profileIncluded lineEnd lineStart thickness cloud
      = profileIncluded lineStart lineEnd thickness cloud ∧
    getProfilePoints lineEnd lineStart thickness cloud
      = (profileIncluded lineStart lineEnd thickness cloud).map
          (fun pc => ⟨distanceAlongLine pc.1 lineEnd lineStart, pc.1.z, pc.2,
                      distanceToVerticalPlane pc.1 lineEnd lineStart⟩) := by
  refine ⟨profileIncluded_swap lineStart lineEnd thickness cloud, ?_⟩
  rw [getProfilePoints_eq_map, profileIncluded_swap]

/-- C5 counterexample: with a zero-length line the extraction does NOT degrade
to the empty sequence — a one-point cloud yields a nonempty profile, because
the guarded normalization gives plane distance 0 ≤ thickness/2. -/
theorem zero_length_line_not_empty :
    getProfilePoints ⟨0, 0, 0⟩ ⟨0, 0, 0⟩ 2
      [((⟨1, 2, 3⟩ : Vec3 ℝ), (⟨1, 1, 1⟩ : Vec3 ℝ))] ≠ [] := by
  unfold getProfilePoints
  rw [List.foldr_cons, List.foldr_nil,
    if_pos (by rw [distanceToVerticalPlane_degenerate _ _ rfl rfl]; norm_num)]
  simp

/-- C5 (amended): a zero-length line — equal endpoints, or endpoints differing
only in height — does not crash: the `length() || 1` guard maps the zero
direction to itself, every point's plane distance degenerates to 0, and (for
nonnegative thickness) every point of the cloud is therefore included, rather
than none as the claim stated. -/
theorem profile_degenerate_line_includes_all (lineStart lineEnd : Vec3 ℝ)
    (thickness : ℝ) (cloud : List (Vec3 ℝ × Vec3 ℝ))
    (hx : lineEnd.x = lineStart.x) (hy : lineEnd.y = lineStart.y)
    (ht : 0 ≤ thickness) :
    (∀ p : Vec3 ℝ, distanceToVerticalPlane p lineStart lineEnd = 0) ∧
    getProfilePoints lineStart lineEnd thickness cloud
      = cloud.map (fun pc => ⟨distanceAlongLine pc.1 lineStart lineEnd, pc.1.z, pc.2, 0⟩) := by
  have hdist : ∀ p : Vec3 ℝ, distanceToVerticalPlane p lineStart lineEnd = 0 :=
    distanceToVerticalPlane_degenerate lineStart lineEnd hx hy
  refine ⟨hdist, ?_⟩
  unfold getProfilePoints
  induction cloud with
  | nil => rfl
  | cons pc tl ih =>
    rw [List.foldr_cons, List.map_cons, hdist pc.1,
      if_pos (by linarith : (0:ℝ) ≤ thickness / 2), ih]

/-- Witness for C5 (amended): a vertical two-endpoint line over a one-point
cloud returns that point with plane distance 0. -/
theorem profile_degenerate_line_includes_all_witness :
    getProfilePoints ⟨0, 0, 0⟩ ⟨0, 0, 5⟩ 2
        [((⟨1, 2, 3⟩ : Vec3 ℝ), (⟨0, 1, 0⟩ : Vec3 ℝ))]
      = [((⟨1, 2, 3⟩ : Vec3 ℝ), (⟨0, 1, 0⟩ : Vec3 ℝ))].map
          (fun pc => ⟨distanceAlongLine pc.1 ⟨0, 0, 0⟩ ⟨0, 0, 5⟩, pc.1.z, pc.2, 0⟩) :=
  (profile_degenerate_line_includes_all ⟨0, 0, 0⟩ ⟨0, 0, 5⟩ 2
    [((⟨1, 2, 3⟩ : Vec3 ℝ), (⟨0, 1, 0⟩ : Vec3 ℝ))] rfl rfl (by norm_num)).2

/-- C9: inclusion in the extracted profile depends only on the perpendicular
distance to the vertical plane (a plain filter, preserving scan order), and a
point projecting beyond the segment — here distance-along-line 5 on a segment
of length 1 — is still included when within the thickness filter. -/
theorem profile_inclusion_by_plane_distance :
    (∀ (s e : Vec3 ℝ) (t : ℝ) (cloud : List (Vec3 ℝ × Vec3 ℝ)),
      getProfilePoints s e t cloud =
        (cloud.filter (fun pc => decide (distanceToVerticalPlane pc.1 s e ≤ t / 2))).map
          (fun pc => ⟨distanceAlongLine pc.1 s e, pc.1.z, pc.2,
                      distanceToVerticalPlane pc.1 s e⟩)) ∧
    distanceAlongLine ⟨5, 1/2, 7⟩ ⟨0, 0, 0⟩ ⟨1, 0, 0⟩ = 5 ∧
    getProfilePoints ⟨0, 0, 0⟩ ⟨1, 0, 0⟩ 2 [((⟨5, 1/2, 7⟩ : Vec3 ℝ), (⟨1, 1, 1⟩ : Vec3 ℝ))]
      = [⟨5, 7, ⟨1, 1, 1⟩, 1/2⟩] := by
  have hfull : fullDenom (⟨0, 0, 0⟩ : Vec3 ℝ) ⟨1, 0, 0⟩ = 1 := by
    unfold fullDenom length3
    norm_num
  have hdal : distanceAlongLine ⟨5, 1/2, 7⟩ ⟨0, 0, 0⟩ ⟨1, 0, 0⟩ = 5 := by
    rw [distanceAlongLine_eq, hfull]
    norm_num
  have hhoriz : horizDenom (⟨0, 0, 0⟩ : Vec3 ℝ) ⟨1, 0, 0⟩ = 1 := by
    unfold horizDenom horizLen length3
    norm_num
  have hdist : distanceToVerticalPlane ⟨5, 1/2, 7⟩ ⟨0, 0, 0⟩ ⟨1, 0, 0⟩ = 1/2 := by
    rw [distanceToVerticalPlane_eq, hhoriz]
    norm_num
  refine ⟨?_, hdal, ?_⟩
  · intro s e t cloud
    rw [getProfilePoints_eq_map, profileIncluded_eq_filter]
  · unfold getProfilePoints
    rw [List.foldr_cons, List.foldr_nil, if_pos (by rw [hdist]; norm_num)]
    rw [hdist, hdal]

/-- C7 counterexample: the regex scan has no notion of lines or comment
markers, so a numeric triple sitting on a comment line IS emitted as a record —
the input "# 1 2 3" parses to one point where the claim requires zero. -/
theorem comment_line_triple_parsed : (parseXYZFile "# 1 2 3").count = 1 := by
  decide

/-- C7 (amended): blank lines and comment text without a numeric triple
contribute no parsed point, and Scenario A holds exactly — the input parses to
4 points with minZ = 0, maxZ = 3; but because the scan is a global regex over
the whole text, comment lines are not skipped as such, and numeric triples on
them are parsed (see the counterexample). -/
theorem scenarioA_parse :
    (parseXYZFile "0 0 0\n1 0 1\n2 0 2\n# comment\n\n3 0 3").count = 4 ∧
    (parseXYZFile "0 0 0\n1 0 1\n2 0 2\n# comment\n\n3 0 3").bounds
      = some ⟨0, 3, 0, 0, 0, 3⟩ ∧
    (parseXYZFile "# abc\n\n").count = 0 := by
  refine ⟨by decide, ?_, by decide⟩
  have hscan : scanTriples ("0 0 0\n1 0 1\n2 0 2\n# comment\n\n3 0 3".toList) =
      [(['0'], ['0'], ['0']), (['1'], ['0'], ['1']), (['2'], ['0'], ['2']),
       (['3'], ['0'], ['3'])] := by decide
  have h0 : tokenVal ['0'] = 0 := by
    have h : tokenParts ['0'] = ⟨false, 0, 0, 0, 0⟩ := by decide
    rw [tokenVal, h]; norm_num [partsVal]
  have h1 : tokenVal ['1'] = 1 := by
    have h : tokenParts ['1'] = ⟨false, 1, 0, 0, 0⟩ := by decide
    rw [tokenVal, h]; norm_num [partsVal]
  have h2 : tokenVal ['2'] = 2 := by
    have h : tokenParts ['2'] = ⟨false, 2, 0, 0, 0⟩ := by decide
    rw [tokenVal, h]; norm_num [partsVal]
  have h3 : tokenVal ['3'] = 3 := by
    have h : tokenParts ['3'] = ⟨false, 3, 0, 0, 0⟩ := by decide
    rw [tokenVal, h]; norm_num [partsVal]
  rw [parseXYZFile_bounds]
  unfold parsedRecords
  rw [hscan]
  simp only [List.map_cons, List.map_nil, h0, h1, h2, h3]
  simp [accBounds]
  norm_num [min_def, max_def]

end CloudStream
